import Mathlib

/-!
Verification development for the Option_Pricing repository.

Shallow embedding of the three source files:
* `base.py`   — the `OptionType` enumeration and the `PricingModel`
  dispatch method `compute_option_price`;
* `Binomial.py` — the binomial lattice engine;
* `MCS.py`    — the Monte Carlo simulation engine.

Real-valued (float) arithmetic of the source is embedded as `ℝ`.
-/

noncomputable section

/-! ## base.py -/

/-- The `OptionType` enum of `base.py`: two variants with string values. -/
inductive OptionType where
  | CALL
  | PUT
deriving DecidableEq

/-- The `.value` attribute of each enum member. -/
def OptionType.value : OptionType → String
  | .CALL => "Call Option"
  | .PUT => "Put Option"

/-- A value that can be passed as the `option_type` argument of
`compute_option_price`: either a Python string or an `OptionType` enum
member itself. -/
inductive OptionLabel where
  | str (s : String)
  | enum (t : OptionType)
deriving DecidableEq

/-- Python equality `option_type == <string>`: a string compares by content;
an `OptionType` enum member is never equal to a plain string (Python `Enum`
equality is identity-based, and an enum member is not its `.value`). -/
def pyEqStr : OptionLabel → String → Bool
  | .str s, t => s = t
  | .enum _, _ => false

/-- `PricingModel.compute_option_price` of `base.py`, parametrised by the
values returned by the engine's `_compute_call_price` and
`_compute_put_price` hooks.  Unrecognized labels fall through to the
sentinel `-1`. -/
def compute_option_price (call_price put_price : ℝ) (option_type : OptionLabel) : ℝ :=
  if pyEqStr option_type OptionType.CALL.value then call_price
  else if pyEqStr option_type OptionType.PUT.value then put_price
  else -1

/-- The two abstract hook names that `compute_option_price` invokes
(`self._compute_call_price()` / `self._compute_put_price()`). -/
def pricing_model_abstract_methods : List String :=
  ["_compute_call_price", "_compute_put_price"]

/-- The methods defined by the `Binomial` class in `Binomial.py`. -/
def binomial_methods : List String :=
  ["__init__", "_compute_call_price", "_compute_put_price"]

/-- The methods defined by the `MonteCarloSimulation` class in `MCS.py`. -/
def monte_carlo_methods : List String :=
  ["__init__", "simulate_price_paths", "_compute_call_option_price",
   "_compute_put_option_price", "plot_simulation_paths"]

/-! ## Binomial.py -/

namespace Binomial

/-- Constructor arguments of the `Binomial` class (with `time_to_maturity`
already derived as `time_to_maturity_days / 365` in `__init__`). -/
structure Params where
  spot_price : ℝ
  strike_price : ℝ
  time_to_maturity_days : ℝ
  risk_free_rate : ℝ
  volatility : ℝ
  steps : ℕ

/-- `self.time_to_maturity = time_to_maturity_days / 365`. -/
def time_to_maturity (p : Params) : ℝ := p.time_to_maturity_days / 365

/-- `delta_t = self.time_to_maturity / self.steps`. -/
def delta_t (p : Params) : ℝ := time_to_maturity p / p.steps

/-- `up_factor = np.exp(self.volatility * np.sqrt(delta_t))`. -/
def up_factor (p : Params) : ℝ := Real.exp (p.volatility * Real.sqrt (delta_t p))

/-- `down_factor = 1.0 / up_factor`. -/
def down_factor (p : Params) : ℝ := 1 / up_factor p

/-- `final_asset_prices[j] = spot * up_factor**j * down_factor**(steps - j)`. -/
def final_asset_prices (p : Params) (j : ℕ) : ℝ :=
  p.spot_price * up_factor p ^ j * down_factor p ^ (p.steps - j)

/-- `risk_free_compound = np.exp(self.risk_free_rate * delta_t)`. -/
def risk_free_compound (p : Params) : ℝ := Real.exp (p.risk_free_rate * delta_t p)

/-- `prob_up = (risk_free_compound - down_factor) / (up_factor - down_factor)`. -/
def prob_up (p : Params) : ℝ :=
  (risk_free_compound p - down_factor p) / (up_factor p - down_factor p)

/-- The per-step discount factor `np.exp(-self.risk_free_rate * delta_t)`. -/
def discount (p : Params) : ℝ := Real.exp (-p.risk_free_rate * delta_t p)

/-- One pass of the in-place vectorised update
`option_prices[:-1] = disc * (q * option_prices[1:] + (1 - q) * option_prices[:-1])`
on a vector of length `N + 1`: entries `0 ≤ j < N` are replaced
simultaneously from the old vector, entry `N` (and beyond) is untouched. -/
def slicePass (disc q : ℝ) (N : ℕ) (v : ℕ → ℝ) : ℕ → ℝ :=
  fun j => if j < N then disc * (q * v (j + 1) + (1 - q) * v j) else v j

/-- The iteration indices of the Python loop `range(steps - 1, -1, -1)`,
namely `[steps - 1, ..., 1, 0]`; the loop body ignores the index. -/
def loop_indices (steps : ℕ) : List ℕ := (List.range steps).reverse

/-- Terminal payoff vector for the call:
`option_prices[:] = np.maximum(final_asset_prices - strike, 0.0)`. -/
def call_payoff (p : Params) (j : ℕ) : ℝ := max (final_asset_prices p j - p.strike_price) 0

/-- Terminal payoff vector for the put:
`option_prices[:] = np.maximum(strike - final_asset_prices, 0.0)`. -/
def put_payoff (p : Params) (j : ℕ) : ℝ := max (p.strike_price - final_asset_prices p j) 0

/-- `Binomial._compute_call_price`: run the backward loop over the indices
of `range(steps - 1, -1, -1)` starting from the call payoff vector and
return `option_prices[0]`. -/
def compute_call_price (p : Params) : ℝ :=
  ((loop_indices p.steps).foldl
    (fun v _ => slicePass (discount p) (prob_up p) p.steps v) (call_payoff p)) 0

/-- `Binomial._compute_put_price`: same loop from the put payoff vector. -/
def compute_put_price (p : Params) : ℝ :=
  ((loop_indices p.steps).foldl
    (fun v _ => slicePass (discount p) (prob_up p) p.steps v) (put_payoff p)) 0

/-- Specification-side definition for the refinement claim: naive
per-node backward induction.  `specNodeValue disc q payoff k j` is the
value of the node `k` steps before maturity at index `j`: at maturity it
is the terminal payoff, and otherwise the one-step risk-neutral discounted
expectation `disc * (q * up-successor + (1 - q) * down-successor)`. -/
def specNodeValue (disc q : ℝ) (payoff : ℕ → ℝ) : ℕ → ℕ → ℝ
  | 0, j => payoff j
  | k + 1, j =>
      disc * (q * specNodeValue disc q payoff k (j + 1) +
        (1 - q) * specNodeValue disc q payoff k j)

end Binomial

/-! ## MCS.py -/

namespace MonteCarloSimulation

/-- Constructor arguments of the `MonteCarloSimulation` class. -/
structure Params where
  spot_price : ℝ
  strike_price : ℝ
  maturity_days : ℕ
  risk_free_rate : ℝ
  volatility : ℝ
  num_simulations : ℕ

/-- `self.time_to_maturity = maturity_days / 365`. -/
def time_to_maturity (p : Params) : ℝ := p.maturity_days / 365

/-- `self.num_steps = maturity_days`. -/
def num_steps (p : Params) : ℕ := p.maturity_days

/-- `self.dt = self.time_to_maturity / self.num_steps`. -/
def dt (p : Params) : ℝ := time_to_maturity p / num_steps p

/-- One GBM update of the loop body:
`prev * np.exp((rate - 0.5 * vol**2) * dt + vol * np.sqrt(dt) * z)`. -/
def gbm_update (p : Params) (prev z : ℝ) : ℝ :=
  prev * Real.exp ((p.risk_free_rate - 0.5 * p.volatility ^ 2) * dt p +
    p.volatility * Real.sqrt (dt p) * z)

/-- The matrix `price_paths` after the simulation loop, as a function of
the drawn standard normals `Z t i` (iteration `t`, column `i`): it has
`num_steps` rows (`np.zeros((num_steps, num_simulations))`), row 0 holds
the spot price (`price_paths[0] = spot_price`), rows `1 ≤ t < num_steps`
are produced by one GBM update from the previous row, and rows at or
beyond `num_steps` keep their zero initialization. -/
def price_paths (p : Params) (Z : ℕ → ℕ → ℝ) : ℕ → ℕ → ℝ
  | 0, _ => p.spot_price
  | t + 1, i =>
      if t + 1 < num_steps p then gbm_update p (price_paths p Z t i) (Z (t + 1) i)
      else 0

/-- The iteration indices of the Python loop `for t in range(1, num_steps)`,
namely `[1, ..., num_steps - 1]`: one GBM update per index. -/
def loop_steps (p : Params) : List ℕ := List.range' 1 (num_steps p - 1)

/-- The terminal row used for payoffs, `self.simulation_results[-1]`: the
row at index `num_steps - 1`. -/
def terminal_prices (p : Params) (Z : ℕ → ℕ → ℝ) (i : ℕ) : ℝ :=
  price_paths p Z (num_steps p - 1) i

/-- The engine state observed by the pricing routines: the
`simulation_results` attribute, absent (`None`) until a simulation has
produced an ensemble. -/
structure State where
  simulation_results : Option (ℕ → ℕ → ℝ)

/-- `np.mean` over the first `n` entries of a vector. -/
def npMean (n : ℕ) (f : ℕ → ℝ) : ℝ := (∑ i ∈ Finset.range n, f i) / n

/-- `MonteCarloSimulation._compute_call_option_price`: the sentinel `-1`
when `simulation_results is None`, otherwise
`np.exp(-rate * T) * np.mean(np.maximum(simulation_results[-1] - strike, 0))`. -/
def compute_call_option_price (p : Params) (st : State) : ℝ :=
  match st.simulation_results with
  | none => -1
  | some paths =>
      Real.exp (-p.risk_free_rate * time_to_maturity p) *
        npMean p.num_simulations
          (fun i => max (paths (num_steps p - 1) i - p.strike_price) 0)

/-- `MonteCarloSimulation._compute_put_option_price`: symmetric with
payoff `np.maximum(strike - simulation_results[-1], 0)`. -/
def compute_put_option_price (p : Params) (st : State) : ℝ :=
  match st.simulation_results with
  | none => -1
  | some paths =>
      Real.exp (-p.risk_free_rate * time_to_maturity p) *
        npMean p.num_simulations
          (fun i => max (p.strike_price - paths (num_steps p - 1) i) 0)

/-- The state of numpy's global random generator: which seed it was last
seeded with and how many values have been drawn since. -/
structure RNGState where
  seed : ℕ
  pos : ℕ

/-- `np.random.seed(s)`: resets the global generator, discarding the prior
state. -/
def np_random_seed (s : ℕ) (_ : RNGState) : RNGState := ⟨s, 0⟩

/-- `MonteCarloSimulation.simulate_price_paths`, parametrised by the
deterministic stream `norm seed idx` of standard normals numpy produces
after seeding: it first executes `np.random.seed(20)`, then runs the
simulation loop; iteration `t` draws `num_simulations` normals, so its
draws occupy stream positions `(t - 1) * num_simulations + i`.  Returns
the new engine state (ensemble populated) and the advanced generator. -/
def simulate_price_paths (norm : ℕ → ℕ → ℝ) (p : Params) (st : RNGState) :
    State × RNGState :=
  let st1 := np_random_seed 20 st
  (⟨some (price_paths p
      (fun t i => norm st1.seed (st1.pos + (t - 1) * p.num_simulations + i)))⟩,
    ⟨st1.seed, st1.pos + (num_steps p - 1) * p.num_simulations⟩)

end MonteCarloSimulation

namespace Binomial

/-- A `foldl` whose body ignores the list element is an iteration of the
body, once per element. -/
theorem foldl_const_eq_iterate {α β : Type} (f : β → β) (l : List α) (v : β) :
    l.foldl (fun w _ => f w) v = f^[l.length] v := by
  induction l generalizing v with
  | nil => rfl
  | cons a l ih =>
      show l.foldl (fun w _ => f w) (f v) = f^[(a :: l).length] v
      rw [ih, List.length_cons, Function.iterate_succ_apply]

/-- On indices that stay below the top of the vector, iterating the
vectorised slice update computes exactly the naive per-node backward
induction values. -/
theorem slice_iterate_eq_specNodeValue (disc q : ℝ) (N : ℕ) :
    ∀ k j : ℕ, j + k ≤ N → ∀ v : ℕ → ℝ,
      (slicePass disc q N)^[k] v j = specNodeValue disc q v k j := by
  intro k
  induction k with
  | zero =>
      intro j _ v
      simp [specNodeValue]
  | succ k ih =>
      intro j h v
      rw [Function.iterate_succ_apply']
      have hj : j < N := by omega
      show (if j < N then
          disc * (q * (slicePass disc q N)^[k] v (j + 1) +
            (1 - q) * (slicePass disc q N)^[k] v j)
        else (slicePass disc q N)^[k] v j) = _
      rw [if_pos hj, ih (j + 1) (by omega) v, ih j (by omega) v]
      simp [specNodeValue]

/-- The call routine returns the root of naive backward induction from the
call payoff vector. -/
theorem call_price_eq_specNodeValue (p : Params) :
    compute_call_price p =
      specNodeValue (discount p) (prob_up p) (call_payoff p) p.steps 0 := by
  unfold compute_call_price
  rw [foldl_const_eq_iterate]
  have hlen : (loop_indices p.steps).length = p.steps := by
    simp [loop_indices]
  rw [hlen]
  exact slice_iterate_eq_specNodeValue _ _ _ p.steps 0 (by omega) _

/-- The put routine returns the root of naive backward induction from the
put payoff vector. -/
theorem put_price_eq_specNodeValue (p : Params) :
    compute_put_price p =
      specNodeValue (discount p) (prob_up p) (put_payoff p) p.steps 0 := by
  unfold compute_put_price
  rw [foldl_const_eq_iterate]
  have hlen : (loop_indices p.steps).length = p.steps := by
    simp [loop_indices]
  rw [hlen]
  exact slice_iterate_eq_specNodeValue _ _ _ p.steps 0 (by omega) _

/-- Backward induction is linear in the payoff vector. -/
theorem specNodeValue_sub (disc q : ℝ) (f g : ℕ → ℝ) :
    ∀ k j : ℕ, specNodeValue disc q (fun i => f i - g i) k j =
      specNodeValue disc q f k j - specNodeValue disc q g k j := by
  intro k
  induction k with
  | zero =>
      intro j
      simp [specNodeValue]
  | succ k ih =>
      intro j
      simp only [specNodeValue, ih]
      ring

/-- The node value `k` steps before maturity at index `j` depends only on
the payoff entries in the window `[j, j + k]`. -/
theorem specNodeValue_congr (disc q : ℝ) :
    ∀ (k : ℕ) (f g : ℕ → ℝ) (j : ℕ),
      (∀ i, j ≤ i → i ≤ j + k → f i = g i) →
      specNodeValue disc q f k j = specNodeValue disc q g k j := by
  intro k
  induction k with
  | zero =>
      intro f g j h
      simp only [specNodeValue]
      exact h j le_rfl (by omega)
  | succ k ih =>
      intro f g j h
      simp only [specNodeValue]
      rw [ih f g (j + 1) (fun i hi₁ hi₂ => h i (by omega) (by omega)),
        ih f g j (fun i hi₁ hi₂ => h i hi₁ (by omega))]

/-- Backward induction of an exponential-affine payoff
`c * u ^ (2 i - N) + b`, assuming the martingale identity
`q * u + (1 - q) * u⁻¹ = R`: each step multiplies the affine part by
`disc * R` and the constant part by `disc`, shifting the exponent. -/
theorem specNodeValue_geom (disc q u R c b : ℝ) (hu : u ≠ 0)
    (hR : q * u + (1 - q) * u⁻¹ = R) (N : ℤ) :
    ∀ k j : ℕ,
      specNodeValue disc q (fun i => c * u ^ (2 * (i : ℤ) - N) + b) k j =
        (disc * R) ^ k * c * u ^ (2 * (j : ℤ) + k - N) + disc ^ k * b := by
  intro k
  induction k with
  | zero =>
      intro j
      simp [specNodeValue]
  | succ k ih =>
      intro j
      simp only [specNodeValue, ih]
      push_cast
      have e1 : u ^ (2 * ((j : ℤ) + 1) + (k : ℤ) - N) =
          u ^ (2 * (j : ℤ) + ((k : ℤ) + 1) - N) * u := by
        rw [← zpow_add_one₀ hu]
        congr 1
        ring
      have e2 : u ^ (2 * (j : ℤ) + (k : ℤ) - N) =
          u ^ (2 * (j : ℤ) + ((k : ℤ) + 1) - N) * u⁻¹ := by
        rw [← zpow_sub_one₀ hu]
        congr 1
        ring
      rw [e1, e2, pow_succ, pow_succ, ← hR]
      ring

/-- The call and put terminal payoffs differ exactly by the forward
payoff. -/
theorem max_sub_max (a b : ℝ) : max (a - b) 0 - max (b - a) 0 = a - b := by
  rcases le_total a b with h | h
  · rw [max_eq_right (by linarith : a - b ≤ 0),
      max_eq_left (by linarith : (0 : ℝ) ≤ b - a)]
    ring
  · rw [max_eq_left (by linarith : (0 : ℝ) ≤ a - b),
      max_eq_right (by linarith : b - a ≤ 0)]
    ring

/-- On indices `j ≤ steps` the terminal asset price has the recombining
closed form `spot * u ^ (2 j - steps)`. -/
theorem final_asset_prices_zpow (p : Params) (hu0 : up_factor p ≠ 0) (j : ℕ)
    (hj : j ≤ p.steps) :
    final_asset_prices p j =
      p.spot_price * up_factor p ^ (2 * (j : ℤ) - (p.steps : ℤ)) := by
  rw [final_asset_prices]
  have hd : down_factor p = (up_factor p)⁻¹ := by rw [down_factor, one_div]
  rw [hd, mul_assoc]
  congr 1
  rw [← zpow_natCast (up_factor p) j, inv_pow,
    ← zpow_natCast (up_factor p) (p.steps - j), ← zpow_neg, ← zpow_add₀ hu0]
  congr 1
  omega

/-- The risk-neutral probability makes the one-step expected growth equal
the compounded risk-free return. -/
theorem prob_up_martingale (p : Params) (hne : up_factor p ≠ down_factor p) :
    prob_up p * up_factor p + (1 - prob_up p) * (up_factor p)⁻¹ =
      risk_free_compound p := by
  have hsub : up_factor p - down_factor p ≠ 0 := sub_ne_zero.mpr hne
  have hq : prob_up p * (up_factor p - down_factor p) =
      risk_free_compound p - down_factor p := by
    rw [prob_up]
    exact div_mul_cancel₀ _ hsub
  have hd : (up_factor p)⁻¹ = down_factor p := by rw [down_factor, one_div]
  rw [hd]
  linear_combination hq

/-- With at least one step, the step length times the step count is the
full maturity. -/
theorem delta_t_mul_steps (p : Params) (h : 1 ≤ p.steps) :
    delta_t p * p.steps = time_to_maturity p := by
  rw [delta_t]
  exact div_mul_cancel₀ _ (Nat.cast_ne_zero.mpr (by omega))

/-- The per-step discount exactly cancels the per-step compounding. -/
theorem discount_mul_compound (p : Params) :
    discount p * risk_free_compound p = 1 := by
  rw [discount, risk_free_compound, ← Real.exp_add, neg_mul, neg_add_cancel,
    Real.exp_zero]

/-- Compounded over all steps, the per-step discount is the full-maturity
discount factor. -/
theorem discount_pow_steps (p : Params) (h : 1 ≤ p.steps) :
    discount p ^ p.steps = Real.exp (-p.risk_free_rate * time_to_maturity p) := by
  rw [discount, ← Real.exp_nat_mul]
  congr 1
  linear_combination (-p.risk_free_rate) * delta_t_mul_steps p h

/-- With maturity 365 days and one step, the time step is one year. -/
theorem delta_t_one (spot strike rate vol : ℝ) :
    delta_t ⟨spot, strike, 365, rate, vol, 1⟩ = 1 := by
  norm_num [delta_t, time_to_maturity]

/-- With unit volatility, maturity 365 days and one step, the up factor is
`exp 1`. -/
theorem up_factor_unit (spot strike rate : ℝ) :
    up_factor ⟨spot, strike, 365, rate, 1, 1⟩ = Real.exp 1 := by
  rw [up_factor, delta_t_one]
  norm_num [Real.sqrt_one]

/-- With unit volatility, maturity 365 days and one step, the down factor
is `(exp 1)⁻¹`. -/
theorem down_factor_unit (spot strike rate : ℝ) :
    down_factor ⟨spot, strike, 365, rate, 1, 1⟩ = (Real.exp 1)⁻¹ := by
  rw [down_factor, up_factor_unit, one_div]

/-- For those parameters the down factor is strictly below the up factor. -/
theorem down_lt_up_unit (spot strike rate : ℝ) :
    down_factor ⟨spot, strike, 365, rate, 1, 1⟩ <
      up_factor ⟨spot, strike, 365, rate, 1, 1⟩ := by
  rw [up_factor_unit, down_factor_unit, ← Real.exp_neg]
  exact Real.exp_lt_exp.mpr (by norm_num)

end Binomial

/-- C6: for every parameter set with `steps ≥ 1`, the in-place slice-update
loop of the lattice engine performs exactly `steps` induction passes (one
per index of `range(steps - 1, -1, -1)`), and the returned index-0 value of
both the call and the put routine equals the root value of naive per-node
backward induction, where each node is the one-step risk-neutral discounted
expectation of its two successors, starting from the terminal payoffs. -/
theorem c6_slice_loop_refines_backward_induction (p : Binomial.Params)
    (h : 1 ≤ p.steps) :
    (Binomial.loop_indices p.steps).length = p.steps ∧
    Binomial.compute_call_price p =
      Binomial.specNodeValue (Binomial.discount p) (Binomial.prob_up p)
        (Binomial.call_payoff p) p.steps 0 ∧
    Binomial.compute_put_price p =
      Binomial.specNodeValue (Binomial.discount p) (Binomial.prob_up p)
        (Binomial.put_payoff p) p.steps 0 := by
  refine ⟨by simp [Binomial.loop_indices], ?_, ?_⟩
  · exact Binomial.call_price_eq_specNodeValue p
  · exact Binomial.put_price_eq_specNodeValue p

/-- Witness for C6 at a concrete one-step engine. -/
theorem c6_slice_loop_refines_backward_induction_witness :
    1 ≤ (1 : ℕ) ∧
    ((Binomial.loop_indices (⟨100, 100, 365, 0.05, 0.2, 1⟩ : Binomial.Params).steps).length =
        (⟨100, 100, 365, 0.05, 0.2, 1⟩ : Binomial.Params).steps ∧
      Binomial.compute_call_price ⟨100, 100, 365, 0.05, 0.2, 1⟩ =
        Binomial.specNodeValue (Binomial.discount ⟨100, 100, 365, 0.05, 0.2, 1⟩)
          (Binomial.prob_up ⟨100, 100, 365, 0.05, 0.2, 1⟩)
          (Binomial.call_payoff ⟨100, 100, 365, 0.05, 0.2, 1⟩)
          (⟨100, 100, 365, 0.05, 0.2, 1⟩ : Binomial.Params).steps 0 ∧
      Binomial.compute_put_price ⟨100, 100, 365, 0.05, 0.2, 1⟩ =
        Binomial.specNodeValue (Binomial.discount ⟨100, 100, 365, 0.05, 0.2, 1⟩)
          (Binomial.prob_up ⟨100, 100, 365, 0.05, 0.2, 1⟩)
          (Binomial.put_payoff ⟨100, 100, 365, 0.05, 0.2, 1⟩)
          (⟨100, 100, 365, 0.05, 0.2, 1⟩ : Binomial.Params).steps 0) :=
  ⟨by decide, c6_slice_loop_refines_backward_induction ⟨100, 100, 365, 0.05, 0.2, 1⟩ (by decide)⟩

/-- C5 counterexample: for spot 1, strike 1, maturity 365 days, risk-free
rate 2, volatility 1 and one step, the computed risk-neutral up-probability
`(R - d) / (u - d)` exceeds 1, and the engine computes it (and a price)
with no validation — refuting the claim that every pricing call satisfies
`0 ≤ p ≤ 1` or fails. -/
theorem c5_cex_prob_up_exceeds_one :
    1 < Binomial.prob_up ⟨1, 1, 365, 2, 1, 1⟩ := by
  have hu := Binomial.up_factor_unit 1 1 2
  have hd := Binomial.down_factor_unit 1 1 2
  have hR : Binomial.risk_free_compound ⟨1, 1, 365, 2, 1, 1⟩ = Real.exp 2 := by
    rw [Binomial.risk_free_compound, Binomial.delta_t_one]
    norm_num
  have hlt := Binomial.down_lt_up_unit 1 1 2
  have hpos : 0 < Binomial.up_factor ⟨1, 1, 365, 2, 1, 1⟩ -
      Binomial.down_factor ⟨1, 1, 365, 2, 1, 1⟩ := sub_pos.mpr hlt
  rw [Binomial.prob_up, one_lt_div hpos, hu, hd, hR]
  have h12 : Real.exp 1 < Real.exp 2 := Real.exp_lt_exp.mpr (by norm_num)
  linarith

/-- C5 amended: the engine computes the risk-neutral up-probability and a
price unconditionally, with no validation; whenever the up and down
factors are distinct, the probability lies in `[0, 1]` exactly when the
compounded risk-free return lies between the down and the up factor, and
parameters outside that ordering silently yield a probability outside
`[0, 1]`. -/
theorem c5_prob_up_unit_interval_iff (p : Binomial.Params)
    (h : Binomial.down_factor p < Binomial.up_factor p) :
    (0 ≤ Binomial.prob_up p ∧ Binomial.prob_up p ≤ 1) ↔
      (Binomial.down_factor p ≤ Binomial.risk_free_compound p ∧
        Binomial.risk_free_compound p ≤ Binomial.up_factor p) := by
  have hpos : 0 < Binomial.up_factor p - Binomial.down_factor p := sub_pos.mpr h
  rw [Binomial.prob_up, le_div_iff₀ hpos, div_le_one hpos]
  constructor <;> rintro ⟨a, b⟩ <;> exact ⟨by linarith, by linarith⟩

/-- Witness for C5 at a concrete parameter set with distinct factors. -/
theorem c5_prob_up_unit_interval_iff_witness :
    Binomial.down_factor ⟨100, 95, 365, 0, 1, 1⟩ <
        Binomial.up_factor ⟨100, 95, 365, 0, 1, 1⟩ ∧
      ((0 ≤ Binomial.prob_up ⟨100, 95, 365, 0, 1, 1⟩ ∧
          Binomial.prob_up ⟨100, 95, 365, 0, 1, 1⟩ ≤ 1) ↔
        (Binomial.down_factor ⟨100, 95, 365, 0, 1, 1⟩ ≤
            Binomial.risk_free_compound ⟨100, 95, 365, 0, 1, 1⟩ ∧
          Binomial.risk_free_compound ⟨100, 95, 365, 0, 1, 1⟩ ≤
            Binomial.up_factor ⟨100, 95, 365, 0, 1, 1⟩)) :=
  ⟨Binomial.down_lt_up_unit 100 95 0,
    c5_prob_up_unit_interval_iff _ (Binomial.down_lt_up_unit 100 95 0)⟩

/-- C8: at the failing input volatility = 0 (spot 100, strike 90, maturity
365 days, rate 0.05, one step) both lattice factors collapse to 1, so the
divisor `u - d` of the risk-neutral probability is exactly 0: the code
divides by zero instead of reducing to discounted intrinsic value. -/
theorem c8_zero_volatility_prob_up_divisor_zero :
    Binomial.up_factor ⟨100, 90, 365, 0.05, 0, 1⟩ = 1 ∧
    Binomial.down_factor ⟨100, 90, 365, 0.05, 0, 1⟩ = 1 ∧
    Binomial.up_factor ⟨100, 90, 365, 0.05, 0, 1⟩ -
      Binomial.down_factor ⟨100, 90, 365, 0.05, 0, 1⟩ = 0 := by
  have hu : Binomial.up_factor ⟨100, 90, 365, 0.05, 0, 1⟩ = 1 := by
    rw [Binomial.up_factor]
    norm_num [Real.exp_zero]
  have hd : Binomial.down_factor ⟨100, 90, 365, 0.05, 0, 1⟩ = 1 := by
    rw [Binomial.down_factor, hu]
    norm_num
  exact ⟨hu, hd, by rw [hu, hd]; ring⟩


/-- C2: at the failing input `maturity_days = 2` (spot 100, strike 100,
rate 0.05, volatility 0.2, 1000 simulations), the loop
`for t in range(1, num_steps)` performs a single GBM update
(`num_steps - 1`, not the day-count 2 the claim requires), and the
terminal row used for payoffs is the spot price after exactly one update,
i.e. it corresponds to time `maturity - Δt`, not to the maturity. -/
theorem c2_terminal_row_one_update_short (Z : ℕ → ℕ → ℝ) (i : ℕ) :
    (MonteCarloSimulation.loop_steps ⟨100, 100, 2, 0.05, 0.2, 1000⟩).length = 1 ∧
    MonteCarloSimulation.num_steps ⟨100, 100, 2, 0.05, 0.2, 1000⟩ - 1 = 1 ∧
    MonteCarloSimulation.terminal_prices ⟨100, 100, 2, 0.05, 0.2, 1000⟩ Z i =
      MonteCarloSimulation.gbm_update ⟨100, 100, 2, 0.05, 0.2, 1000⟩
        (MonteCarloSimulation.Params.spot_price ⟨100, 100, 2, 0.05, 0.2, 1000⟩)
        (Z 1 i) := by
  refine ⟨?_, rfl, ?_⟩
  · simp [MonteCarloSimulation.loop_steps, MonteCarloSimulation.num_steps]
  · show MonteCarloSimulation.price_paths _ Z 1 i = _
    rw [MonteCarloSimulation.price_paths]
    simp [MonteCarloSimulation.num_steps, MonteCarloSimulation.price_paths]

/-- C4 counterexample: at a concrete engine whose ensemble is absent, the
call query returns the numeric sentinel `-1` — not a `SimulationNotRun`
failure — refuting the claim. -/
theorem c4_cex_query_before_simulation_returns_minus_one :
    MonteCarloSimulation.compute_call_option_price
      ⟨100, 100, 365, 0.05, 0.2, 10000⟩ ⟨none⟩ = -1 := rfl

/-- C4 amended: while the ensemble is absent both pricing routines return
the sentinel `-1` (no `SimulationNotRun` error exists); once an ensemble
is present, both routines return the discounted mean payoff of its
terminal row — a pure function of the stored ensemble, so queries may be
repeated any number of times without re-simulating. -/
theorem c4_sentinel_before_simulation (p : MonteCarloSimulation.Params)
    (paths : ℕ → ℕ → ℝ) :
    MonteCarloSimulation.compute_call_option_price p ⟨none⟩ = -1 ∧
    MonteCarloSimulation.compute_put_option_price p ⟨none⟩ = -1 ∧
    MonteCarloSimulation.compute_call_option_price p ⟨some paths⟩ =
      Real.exp (-p.risk_free_rate * MonteCarloSimulation.time_to_maturity p) *
        MonteCarloSimulation.npMean p.num_simulations
          (fun i => max (paths (MonteCarloSimulation.num_steps p - 1) i -
            p.strike_price) 0) ∧
    MonteCarloSimulation.compute_put_option_price p ⟨some paths⟩ =
      Real.exp (-p.risk_free_rate * MonteCarloSimulation.time_to_maturity p) *
        MonteCarloSimulation.npMean p.num_simulations
          (fun i => max (p.strike_price -
            paths (MonteCarloSimulation.num_steps p - 1) i) 0) :=
  ⟨rfl, rfl, rfl, rfl⟩

/-- C9: because `simulate_price_paths` begins with `np.random.seed(20)`,
the produced ensemble is independent of the incoming generator state: two
engines with identical parameters obtain identical ensembles (element for
element) and every subsequent call or put query returns identical prices
on both. -/
theorem c9_simulation_deterministic_across_runs (norm : ℕ → ℕ → ℝ)
    (p : MonteCarloSimulation.Params)
    (st₁ st₂ : MonteCarloSimulation.RNGState) :
    (MonteCarloSimulation.simulate_price_paths norm p st₁).1 =
      (MonteCarloSimulation.simulate_price_paths norm p st₂).1 ∧
    MonteCarloSimulation.compute_call_option_price p
        (MonteCarloSimulation.simulate_price_paths norm p st₁).1 =
      MonteCarloSimulation.compute_call_option_price p
        (MonteCarloSimulation.simulate_price_paths norm p st₂).1 ∧
    MonteCarloSimulation.compute_put_option_price p
        (MonteCarloSimulation.simulate_price_paths norm p st₁).1 =
      MonteCarloSimulation.compute_put_option_price p
        (MonteCarloSimulation.simulate_price_paths norm p st₂).1 :=
  ⟨rfl, rfl, rfl⟩

/-- C3 counterexample: on the unrecognized label `"Swaption"`, dispatch
over a concrete Binomial engine returns the numeric value `-1` — which the
claim says can never happen. -/
theorem c3_cex_invalid_label_returns_minus_one :
    compute_option_price (Binomial.compute_call_price ⟨100, 100, 365, 0.05, 0.2, 2⟩)
      (Binomial.compute_put_price ⟨100, 100, 365, 0.05, 0.2, 2⟩)
      (OptionLabel.str "Swaption") = -1 := by
  simp [compute_option_price, pyEqStr, OptionType.value]

/-- C3 amended: for every input label that is neither the Call label nor
the Put label, `compute_option_price` returns the numeric sentinel `-1`
rather than raising an `InvalidOptionType` error. -/
theorem c3_invalid_label_returns_sentinel (c q : ℝ) (l : OptionLabel)
    (h₁ : l ≠ OptionLabel.str "Call Option")
    (h₂ : l ≠ OptionLabel.str "Put Option") :
    compute_option_price c q l = -1 := by
  cases l with
  | str s =>
      have hs₁ : s ≠ "Call Option" := fun e => h₁ (by rw [e])
      have hs₂ : s ≠ "Put Option" := fun e => h₂ (by rw [e])
      simp [compute_option_price, pyEqStr, OptionType.value, hs₁, hs₂]
  | enum t =>
      simp [compute_option_price, pyEqStr]

/-- Witness for C3 at a concrete engine and unrecognized label. -/
theorem c3_invalid_label_returns_sentinel_witness :
    (OptionLabel.str "Swaption" ≠ OptionLabel.str "Call Option" ∧
      OptionLabel.str "Swaption" ≠ OptionLabel.str "Put Option") ∧
    compute_option_price (Binomial.compute_call_price ⟨50, 60, 365, 0.01, 0.3, 3⟩)
      (Binomial.compute_put_price ⟨50, 60, 365, 0.01, 0.3, 3⟩)
      (OptionLabel.str "Swaption") = -1 :=
  ⟨⟨by decide, by decide⟩,
    c3_invalid_label_returns_sentinel _ _ _ (by decide) (by decide)⟩

/-- C10: dispatch recognizes an option type only by string equality with
the exact enum label strings: the string `"Call Option"` routes to the
call hook, the string `"Put Option"` routes to the put hook, the enum
members `OptionType.CALL` and `OptionType.PUT` themselves (not being
strings) fall through to `-1`, and so does every other string. -/
theorem c10_dispatch_by_exact_string_equality (c q : ℝ) :
    compute_option_price c q (OptionLabel.str "Call Option") = c ∧
    compute_option_price c q (OptionLabel.str "Put Option") = q ∧
    compute_option_price c q (OptionLabel.enum OptionType.CALL) = -1 ∧
    compute_option_price c q (OptionLabel.enum OptionType.PUT) = -1 ∧
    ∀ s : String, s ≠ "Call Option" → s ≠ "Put Option" →
      compute_option_price c q (OptionLabel.str s) = -1 := by
  refine ⟨?_, ?_, ?_, ?_, ?_⟩
  · simp [compute_option_price, pyEqStr, OptionType.value]
  · simp [compute_option_price, pyEqStr, OptionType.value]
  · simp [compute_option_price, pyEqStr]
  · simp [compute_option_price, pyEqStr]
  · intro s hs₁ hs₂
    simp [compute_option_price, pyEqStr, OptionType.value, hs₁, hs₂]

/-- Witness for C10 on a concrete unrecognized string. -/
theorem c10_dispatch_by_exact_string_equality_witness :
    ("Straddle" ≠ "Call Option" ∧ "Straddle" ≠ "Put Option") ∧
    compute_option_price 3 7 (OptionLabel.str "Straddle") = -1 :=
  ⟨⟨by decide, by decide⟩,
    (c10_dispatch_by_exact_string_equality 3 7).2.2.2.2 "Straddle"
      (by decide) (by decide)⟩

/-- C7: put-call parity is exact for the binomial engine in exact
arithmetic: for every parameter set with at least one step and distinct up
and down factors, the call price minus the put price equals
`spot - strike * exp(-rate * maturity)`. -/
theorem c7_put_call_parity (p : Binomial.Params) (h : 1 ≤ p.steps)
    (hne : Binomial.up_factor p ≠ Binomial.down_factor p) :
    Binomial.compute_call_price p - Binomial.compute_put_price p =
      p.spot_price - p.strike_price *
        Real.exp (-p.risk_free_rate * Binomial.time_to_maturity p) := by
  have hu0 : Binomial.up_factor p ≠ 0 := by
    unfold Binomial.up_factor
    exact (Real.exp_pos _).ne'
  have hR := Binomial.prob_up_martingale p hne
  have hwin : ∀ i, 0 ≤ i → i ≤ 0 + p.steps →
      Binomial.call_payoff p i - Binomial.put_payoff p i =
        p.spot_price * Binomial.up_factor p ^ (2 * (i : ℤ) - (p.steps : ℤ)) +
          -p.strike_price := by
    intro i _ hi
    rw [Binomial.call_payoff, Binomial.put_payoff, Binomial.max_sub_max,
      Binomial.final_asset_prices_zpow p hu0 i (by omega)]
    ring
  calc Binomial.compute_call_price p - Binomial.compute_put_price p
      = Binomial.specNodeValue (Binomial.discount p) (Binomial.prob_up p)
          (fun i => Binomial.call_payoff p i - Binomial.put_payoff p i)
          p.steps 0 := by
        rw [Binomial.call_price_eq_specNodeValue, Binomial.put_price_eq_specNodeValue]
        exact (Binomial.specNodeValue_sub _ _ (Binomial.call_payoff p)
          (Binomial.put_payoff p) p.steps 0).symm
    _ = Binomial.specNodeValue (Binomial.discount p) (Binomial.prob_up p)
          (fun i => p.spot_price *
            Binomial.up_factor p ^ (2 * (i : ℤ) - (p.steps : ℤ)) +
              -p.strike_price) p.steps 0 :=
        Binomial.specNodeValue_congr _ _ p.steps _ _ 0 hwin
    _ = (Binomial.discount p * Binomial.risk_free_compound p) ^ p.steps *
          p.spot_price *
          Binomial.up_factor p ^ (2 * ((0 : ℕ) : ℤ) + (p.steps : ℕ) - (p.steps : ℤ)) +
        Binomial.discount p ^ p.steps * -p.strike_price :=
        Binomial.specNodeValue_geom _ _ _ _ _ _ hu0 hR (p.steps : ℤ) p.steps 0
    _ = p.spot_price - p.strike_price *
          Real.exp (-p.risk_free_rate * Binomial.time_to_maturity p) := by
        rw [Binomial.discount_mul_compound, one_pow,
          Binomial.discount_pow_steps p h]
        have he : (2 * ((0 : ℕ) : ℤ) + ((p.steps : ℕ) : ℤ) - (p.steps : ℤ)) = 0 := by
          push_cast
          ring
        rw [he, zpow_zero]
        ring

/-- Witness for C7 at a concrete one-step engine with distinct factors. -/
theorem c7_put_call_parity_witness :
    (1 ≤ (⟨100, 90, 365, 0, 1, 1⟩ : Binomial.Params).steps ∧
      Binomial.up_factor ⟨100, 90, 365, 0, 1, 1⟩ ≠
        Binomial.down_factor ⟨100, 90, 365, 0, 1, 1⟩) ∧
    Binomial.compute_call_price ⟨100, 90, 365, 0, 1, 1⟩ -
        Binomial.compute_put_price ⟨100, 90, 365, 0, 1, 1⟩ =
      (⟨100, 90, 365, 0, 1, 1⟩ : Binomial.Params).spot_price -
        (⟨100, 90, 365, 0, 1, 1⟩ : Binomial.Params).strike_price *
          Real.exp (-(⟨100, 90, 365, 0, 1, 1⟩ : Binomial.Params).risk_free_rate *
            Binomial.time_to_maturity ⟨100, 90, 365, 0, 1, 1⟩) :=
  ⟨⟨by decide, (Binomial.down_lt_up_unit 100 90 0).ne'⟩,
    c7_put_call_parity ⟨100, 90, 365, 0, 1, 1⟩ (by decide)
      (Binomial.down_lt_up_unit 100 90 0).ne'⟩

/-- C1: the Binomial class overrides both abstract hooks that the dispatch
entry point `compute_option_price` calls, but the MonteCarloSimulation
class overrides neither — its valuation routines carry different names
(`_compute_call_option_price`, `_compute_put_option_price`), so dispatch
never routes to the Monte Carlo valuation routines and the ABC machinery
rejects construction of the class. -/
theorem c1_monte_carlo_hooks_not_overridden :
    binomial_methods.contains "_compute_call_price" = true ∧
    binomial_methods.contains "_compute_put_price" = true ∧
    monte_carlo_methods.contains "_compute_call_price" = false ∧
    monte_carlo_methods.contains "_compute_put_price" = false ∧
    pricing_model_abstract_methods.contains "_compute_call_price" = true ∧
    pricing_model_abstract_methods.contains "_compute_put_price" = true := by
  decide

end
